import Mathlib

set_option maxRecDepth 40000
set_option linter.unusedVariables false

/-!
Shallow embedding of the flappy-dragon game logic (src/main.rs).

The source stores the player velocity and the frame-time accumulator as
IEEE-754 binary32 (f32) values.  Every finite f32 is an integer multiple of
2 ^ (-149), so we embed each f32 quantity as an integer counting units of
2 ^ (-149): the f32 value v is represented by the integer v * 2 ^ 149.
The f32 literals of the source become exact integer constants
(0.2f32 = 13421773 * 2 ^ (-26), hence 13421773 * 2 ^ 123 in these units;
2.0 is 2 ^ 150; 75.0 is 75 * 2 ^ 149), and the f32 addition of the source
becomes exact integer addition followed by round-to-nearest-even at the
precision of f32 (24 significand bits, subnormal granularity 2 ^ (-149)).
Overflow to infinity (magnitudes of 2 ^ 128 and beyond) and NaN are outside
the modelled range; no quantity of the game approaches them.

Positions, scores and screen constants are Rust i32 values; the game never
leaves the magnitude of a few hundred, far from the i32 boundaries, so they
are embedded as plain integers.
-/

/-- Floor of the base-2 logarithm, by fuel recursion so that the kernel can
evaluate it; correct for every positive argument below 2 ^ fuel. -/
def lg2Aux : Nat → Nat → Nat
  | 0, _ => 0
  | fuel + 1, n => if 2 ≤ n then lg2Aux fuel (n / 2) + 1 else 0

/-- Floor of the base-2 logarithm of a natural number, correct below 2 ^ 300,
which covers every finite f32 in 2 ^ (-149) units (magnitude below 2 ^ 277). -/
def lg2 (n : Nat) : Nat := lg2Aux 300 n

/-- Distance between consecutive f32 values at the magnitude n (n counted in
2 ^ (-149) units): 2 ^ (e - 23) for normal values with exponent e, clamped by
the truncated subtraction to the subnormal granularity 1 = 2 ^ (-149). -/
def ulpScale (n : Nat) : Nat := 2 ^ (lg2 n - 23)

/-- Round n to the nearest multiple of u, ties to the even multiple:
the IEEE round-to-nearest-even rule on magnitudes. -/
def rne (n u : Nat) : Nat :=
  let q := n / u
  let r := n % u
  if 2 * r < u then q * u
  else if u < 2 * r then (q + 1) * u
  else if q % 2 = 0 then q * u else (q + 1) * u

/-- Round an exact integer amount of 2 ^ (-149) units to the nearest f32
value (round to nearest, ties to even); rounding is symmetric in the sign. -/
def roundF32 (q : Int) : Int :=
  if q < 0 then -(rne q.natAbs (ulpScale q.natAbs) : Int)
  else (rne q.natAbs (ulpScale q.natAbs) : Int)

/-- The Rust cast of an f32 to i32 (in 2 ^ (-149) units): truncation toward
zero.  The saturation of the cast at the i32 range boundaries is outside the
modelled range. -/
def toI32 (q : Int) : Int :=
  if q < 0 then -((q.natAbs / 2 ^ 149 : Nat) : Int)
  else ((q.natAbs / 2 ^ 149 : Nat) : Int)

/-- const SCREEN_WIDTH: i32 = 80 -/
def SCREEN_WIDTH : Int := 80

/-- const SCREEN_HEIGHT: i32 = 50 -/
def SCREEN_HEIGHT : Int := 50

/-- const FRAME_DURATION: f32 = 75.0, in 2 ^ (-149) units. -/
def FRAME_DURATION : Int := 75 * 2 ^ 149

/-- The f32 literal 0.2 of gravity_and_move: rounding 1/5 to f32 gives
exactly 13421773 * 2 ^ (-26), hence this many 2 ^ (-149) units. -/
def GRAVITY_STEP : Int := 13421773 * 2 ^ 123

/-- The f32 literal 2.0 (terminal velocity bound) in 2 ^ (-149) units. -/
def TERMINAL : Int := 2 ^ 150

/-- The f32 literal -2.0 assigned by flap, in 2 ^ (-149) units. -/
def FLAP_VELOCITY : Int := -(2 ^ 150)

/-- struct Player: x and y are i32 positions, velocity is an f32 in
2 ^ (-149) units. -/
structure Player where
  x : Int
  y : Int
  velocity : Int
deriving DecidableEq

/-- Player::new -/
def Player.new (x y : Int) : Player :=
  { x := x, y := y, velocity := 0 }

/-- Player::gravity_and_move: below the terminal check 2.0 the velocity
grows by the f32 addition of 0.2; the velocity cast to i32 (truncation
toward zero) is added to y; x advances by one; finally y is clamped to 0
from below. -/
def Player.gravity_and_move (p : Player) : Player :=
  let velocity := if p.velocity < TERMINAL then roundF32 (p.velocity + GRAVITY_STEP) else p.velocity
  let y := p.y + toI32 velocity
  let x := p.x + 1
  { x := x, y := if y < 0 then 0 else y, velocity := velocity }

/-- Player::flap: sets the velocity to -2.0. -/
def Player.flap (p : Player) : Player :=
  { p with velocity := FLAP_VELOCITY }

/-- struct Obstacle: x is the horizontal position, gap_y the gap center row,
size the total gap size. -/
structure Obstacle where
  x : Int
  gap_y : Int
  size : Int
deriving DecidableEq

/-- Obstacle::new: the source draws gap_y from random.range(10, 40); the
random draw is injected as the parameter gapY so the function is a pure
embedding of the remaining computation. -/
def Obstacle.new (x score gapY : Int) : Obstacle :=
  { x := x, gap_y := gapY, size := max 2 (20 - score) }

/-- Obstacle::hit_obstacle: the player collides iff the columns match and
the row is strictly outside the gap.  Rust i32 division truncates toward
zero, hence Int.tdiv. -/
def Obstacle.hit_obstacle (o : Obstacle) (p : Player) : Bool :=
  let half_size := o.size.tdiv 2
  let does_x_match := p.x = o.x
  let player_above_gap := p.y < o.gap_y - half_size
  let player_below_gap := o.gap_y + half_size < p.y
  decide does_x_match && (decide player_above_gap || decide player_below_gap)

/-- enum GameMode -/
inductive GameMode where
  | Menu
  | Playing
  | End
deriving DecidableEq

/-- The keys the source distinguishes (Space, P, Q); every other key is
ignored by every handler. -/
inductive VirtualKeyCode where
  | Space
  | P
  | Q
  | Other
deriving DecidableEq

/-- struct State -/
structure State where
  player : Player
  frame_time : Int
  obstacle : Obstacle
  mode : GameMode
  score : Int
deriving DecidableEq

/-- State::new (the gap_y random draw of Obstacle::new injected as gapY). -/
def State.new (gapY : Int) : State :=
  { player := Player.new 5 25
    frame_time := 0
    obstacle := Obstacle.new SCREEN_WIDTH 0 gapY
    mode := GameMode.Menu
    score := 0 }

/-- State::restart -/
def State.restart (s : State) (gapY : Int) : State :=
  { player := Player.new 5 25
    frame_time := 0
    obstacle := Obstacle.new SCREEN_WIDTH 0 gapY
    mode := GameMode.Playing
    score := 0 }

/-- The frame-time accumulation of State::play: the f32 addition of the
elapsed milliseconds onto the accumulator. -/
def State.tickedFrameTime (s : State) (elapsedMs : Int) : Int :=
  roundF32 (s.frame_time + elapsedMs)

/-- The player after the simulation part of State::play: gravity_and_move
runs once when the accumulated frame time passes FRAME_DURATION, and a
Space key triggers flap regardless. -/
def State.playPlayer (s : State) (elapsedMs : Int) (key : Option VirtualKeyCode) : Player :=
  let p := if FRAME_DURATION < s.tickedFrameTime elapsedMs then s.player.gravity_and_move else s.player
  if key = some VirtualKeyCode.Space then p.flap else p

/-- State::play, with the elapsed milliseconds (ctx.frame_time_ms, an f32 in
2 ^ (-149) units), the pressed key and the random gap draw of any replacement
obstacle injected as parameters.  Rendering calls have no effect on the
state and are omitted. -/
def State.play (s : State) (elapsedMs : Int) (key : Option VirtualKeyCode) (gapY : Int) : State :=
  let frame_time := if FRAME_DURATION < s.tickedFrameTime elapsedMs then 0 else s.tickedFrameTime elapsedMs
  let player := s.playPlayer elapsedMs key
  let scoreObstacle :=
    if s.obstacle.x < player.x then
      (s.score + 1, Obstacle.new (player.x + SCREEN_WIDTH) (s.score + 1) gapY)
    else (s.score, s.obstacle)
  let mode :=
    if SCREEN_HEIGHT < player.y ∨ scoreObstacle.2.hit_obstacle player = true then GameMode.End
    else s.mode
  { player := player
    frame_time := frame_time
    obstacle := scoreObstacle.2
    mode := mode
    score := scoreObstacle.1 }

/-- State::main_menu: P restarts; Q only raises the external quitting flag
of the rendering context, leaving the game state unchanged; other keys and
the absence of a key change nothing. -/
def State.main_menu (s : State) (key : Option VirtualKeyCode) (gapY : Int) : State :=
  match key with
  | some VirtualKeyCode.P => s.restart gapY
  | _ => s

/-- State::dead: identical key handling to State::main_menu. -/
def State.dead (s : State) (key : Option VirtualKeyCode) (gapY : Int) : State :=
  match key with
  | some VirtualKeyCode.P => s.restart gapY
  | _ => s

/-- GameState::tick: dispatch on the mode. -/
def State.tick (s : State) (elapsedMs : Int) (key : Option VirtualKeyCode) (gapY : Int) : State :=
  match s.mode with
  | GameMode.Menu => s.main_menu key gapY
  | GameMode.Playing => s.play elapsedMs key gapY
  | GameMode.End => s.dead key gapY

/-- The player states reachable from the fresh player (the one both
State::new and State::restart create) through the two physics operations. -/
inductive ReachablePlayer : Player → Prop where
  | new : ReachablePlayer (Player.new 5 25)
  | gravity {p : Player} : ReachablePlayer p → ReachablePlayer p.gravity_and_move
  | flap {p : Player} : ReachablePlayer p → ReachablePlayer p.flap

/-- Every velocity value (in 2 ^ (-149) units) the game can ever hold: the
union of the f32 orbit of 0.0 and of -2.0 under the gravity update.  Both
orbits end at the fixed point 8388609 * 2 ^ 127, the f32 value
2.000000238418579 = 2 + 2 ^ (-22), which is strictly above the 2.0 of the
terminal-velocity check because the ten rounded f32 additions of 0.2
overshoot. -/
def velocityTable : List Int :=
  [-1 * 2 ^ 150,
   -7549747 * 2 ^ 127,
   -3355443 * 2 ^ 128,
   -5872025 * 2 ^ 127,
   -1258291 * 2 ^ 129,
   -16777213 * 2 ^ 125,
   -6710885 * 2 ^ 126,
   -10066327 * 2 ^ 125,
   -1677721 * 2 ^ 127,
   -13421763 * 2 ^ 123,
   0,
   5 * 2 ^ 124,
   13421773 * 2 ^ 123,
   13421783 * 2 ^ 123,
   13421773 * 2 ^ 124,
   6710889 * 2 ^ 125,
   5033165 * 2 ^ 126,
   2516583 * 2 ^ 127,
   13421773 * 2 ^ 125,
   13421775 * 2 ^ 125,
   1 * 2 ^ 149,
   8388609 * 2 ^ 126,
   5033165 * 2 ^ 127,
   10066331 * 2 ^ 126,
   2936013 * 2 ^ 128,
   11744053 * 2 ^ 126,
   6710887 * 2 ^ 127,
   13421775 * 2 ^ 126,
   1887437 * 2 ^ 129,
   15099497 * 2 ^ 126,
   8388609 * 2 ^ 127]

/-- lg2Aux computes the floor of the base-2 logarithm whenever the fuel
covers the bit length of the argument. -/
lemma lg2Aux_spec : ∀ (fuel n : Nat), 1 ≤ n → n < 2 ^ fuel →
    2 ^ lg2Aux fuel n ≤ n ∧ n < 2 ^ (lg2Aux fuel n + 1) := by
  intro fuel
  induction fuel with
  | zero =>
    intro n h1 h2
    norm_num at h2
    omega
  | succ fuel ih =>
    intro n h1 h2
    rw [lg2Aux]
    by_cases h : 2 ≤ n
    · rw [if_pos h]
      have hdiv : n / 2 < 2 ^ fuel := by
        rw [Nat.div_lt_iff_lt_mul (by omega : 0 < 2)]
        calc n < 2 ^ (fuel + 1) := h2
          _ = 2 ^ fuel * 2 := by rw [Nat.pow_succ]
      have hone : 1 ≤ n / 2 := by omega
      obtain ⟨hlo, hhi⟩ := ih (n / 2) hone hdiv
      constructor
      · calc 2 ^ (lg2Aux fuel (n / 2) + 1) = 2 ^ lg2Aux fuel (n / 2) * 2 := by rw [Nat.pow_succ]
          _ ≤ n / 2 * 2 := Nat.mul_le_mul_right 2 hlo
          _ ≤ n := Nat.div_mul_le_self n 2
      · have key : n < (n / 2 + 1) * 2 := by
          have := Nat.div_add_mod n 2
          omega
        calc n < (n / 2 + 1) * 2 := key
          _ ≤ 2 ^ (lg2Aux fuel (n / 2) + 1) * 2 := Nat.mul_le_mul_right 2 (Nat.succ_le_of_lt hhi)
          _ = 2 ^ (lg2Aux fuel (n / 2) + 1 + 1) := (Nat.pow_succ _ _).symm
    · rw [if_neg h]
      norm_num
      omega

/-- lg2 is the floor of the base-2 logarithm below 2 ^ 300. -/
lemma lg2_spec (n : Nat) (h1 : 1 ≤ n) (h2 : n < 2 ^ 300) :
    2 ^ lg2 n ≤ n ∧ n < 2 ^ (lg2 n + 1) :=
  lg2Aux_spec 300 n h1 h2

/-- rne returns one of the two multiples of u framing n. -/
lemma rne_mem (n u : Nat) : rne n u = n / u * u ∨ rne n u = (n / u + 1) * u := by
  rw [rne]
  split
  · exact Or.inl rfl
  · split
    · exact Or.inr rfl
    · split
      · exact Or.inl rfl
      · exact Or.inr rfl

/-- rne moves its argument by less than one unit u. -/
lemma rne_bounds (n u : Nat) (hu : 0 < u) : n ≤ rne n u + u ∧ rne n u ≤ n + u := by
  have key1 : n / u * u ≤ n := Nat.div_mul_le_self n u
  have key2 : n < n / u * u + u := by
    have hdm : u * (n / u) + n % u = n := Nat.div_add_mod n u
    have hmod : n % u < u := Nat.mod_lt n hu
    calc n = u * (n / u) + n % u := hdm.symm
      _ < u * (n / u) + u := Nat.add_lt_add_left hmod _
      _ = n / u * u + u := by ring
  have hsucc : (n / u + 1) * u = n / u * u + u := by ring
  rcases rne_mem n u with h | h <;> rw [h]
  · exact ⟨Nat.le_of_lt key2, Nat.le_trans key1 (Nat.le_add_right n u)⟩
  · rw [hsucc]
    constructor
    · exact Nat.le_trans (Nat.le_of_lt key2) (Nat.le_add_right _ u)
    · exact Nat.add_le_add_right key1 u

/-- The ulp at any magnitude is positive. -/
lemma ulpScale_pos (n : Nat) : 0 < ulpScale n := Nat.pow_pos (by omega)

/-- Below 2 ^ 151 (magnitudes below 4.0 in f32 units) the ulp is at most
2 ^ 128. -/
lemma ulpScale_le (n : Nat) (h : n < 2 ^ 151) : ulpScale n ≤ 2 ^ 128 := by
  rw [ulpScale]
  by_cases h1 : 1 ≤ n
  · obtain ⟨hlo, _⟩ := lg2_spec n h1 (lt_trans h (by norm_num))
    have hlt : lg2 n < 151 := by
      by_contra hc
      push_neg at hc
      have h151 : (2 : Nat) ^ 151 ≤ 2 ^ lg2 n := Nat.pow_le_pow_right (by omega) hc
      exact absurd (le_trans h151 hlo) (not_le.mpr h)
    exact Nat.pow_le_pow_right (by omega) (by omega)
  · have hn : n = 0 := by omega
    subst hn
    have hz : lg2 0 = 0 := by decide
    rw [hz]
    norm_num

/-- Rounding a nonnegative amount stays nonnegative. -/
lemma roundF32_nonneg (q : Int) (h : 0 ≤ q) : 0 ≤ roundF32 q := by
  rw [roundF32, if_neg (by omega)]
  exact Int.natCast_nonneg _

/-- Anything at least -2.0 + 0.2f32 rounds to strictly above -2.0: on the
negative side the magnitude stays below 2 ^ 150 - 0.2f32 + one ulp, and one
ulp at these magnitudes (at most 2 ^ 128) is far below 0.2f32. -/
lemma roundF32_gt_neg_terminal (q : Int) (h : -TERMINAL + GRAVITY_STEP ≤ q) :
    -TERMINAL < roundF32 q := by
  have hTG : -TERMINAL + GRAVITY_STEP = -(2 ^ 150) + 13421773 * 2 ^ 123 := rfl
  rw [roundF32]
  by_cases hq : q < 0
  · rw [if_pos hq]
    have habs : (q.natAbs : Int) = -q := by omega
    have hnat : q.natAbs + 13421773 * 2 ^ 123 ≤ 2 ^ 150 := by
      rw [hTG] at h
      have h1 : (q.natAbs : Int) + 13421773 * 2 ^ 123 ≤ 2 ^ 150 := by
        rw [habs]
        have e1 : ((2 : Int) ^ 150) = ((2 ^ 150 : Nat) : Int) := by norm_cast
        have e2 : ((13421773 : Int) * 2 ^ 123) = ((13421773 * 2 ^ 123 : Nat) : Int) := by
          norm_cast
        omega
      have e1 : ((2 : Int) ^ 150) = ((2 ^ 150 : Nat) : Int) := by norm_cast
      have e2 : ((13421773 : Int) * 2 ^ 123) = ((13421773 * 2 ^ 123 : Nat) : Int) := by
        norm_cast
      rw [e1, e2] at h1
      exact_mod_cast h1
    have h151 : q.natAbs < 2 ^ 151 := by
      have : (2 : Nat) ^ 150 < 2 ^ 151 := by norm_num
      omega
    have hu := ulpScale_pos q.natAbs
    have hub := ulpScale_le q.natAbs h151
    obtain ⟨_, hrle⟩ := rne_bounds q.natAbs (ulpScale q.natAbs) hu
    have hsmall : rne q.natAbs (ulpScale q.natAbs) < 2 ^ 150 := by
      have hgap : (2 : Nat) ^ 128 < 13421773 * 2 ^ 123 := by norm_num
      omega
    have : (rne q.natAbs (ulpScale q.natAbs) : Int) < 2 ^ 150 := by
      have e1 : ((2 : Int) ^ 150) = ((2 ^ 150 : Nat) : Int) := by norm_cast
      rw [e1]
      exact_mod_cast hsmall
    have hT : TERMINAL = 2 ^ 150 := rfl
    omega
  · rw [if_neg hq]
    have h1 : (0 : Int) ≤ (rne q.natAbs (ulpScale q.natAbs) : Int) := Int.natCast_nonneg _
    have h2 : -TERMINAL < 0 := by decide
    omega

/-- A value strictly above -2.0 truncates toward zero to at least -1. -/
lemma toI32_ge_neg_one (q : Int) (h : -TERMINAL < q) : -1 ≤ toI32 q := by
  rw [toI32]
  by_cases hq : q < 0
  · rw [if_pos hq]
    have habs : (q.natAbs : Int) = -q := by omega
    have hnat : q.natAbs < 2 ^ 150 := by
      have hT : TERMINAL = 2 ^ 150 := rfl
      rw [hT] at h
      have h1 : (q.natAbs : Int) < 2 ^ 150 := by omega
      have e1 : ((2 : Int) ^ 150) = ((2 ^ 150 : Nat) : Int) := by norm_cast
      rw [e1] at h1
      exact_mod_cast h1
    have hdiv : q.natAbs / 2 ^ 149 ≤ 1 := by
      have : q.natAbs / 2 ^ 149 < 2 := by
        rw [Nat.div_lt_iff_lt_mul (by positivity)]
        have e : (2 : Nat) ^ 149 * 2 = 2 ^ 150 := by ring
        omega
      omega
    omega
  · rw [if_neg hq]
    have h1 : (0 : Int) ≤ ((q.natAbs / 2 ^ 149 : Nat) : Int) := Int.natCast_nonneg _
    omega

/-- The velocity table is closed under the gravity update of
Player::gravity_and_move. -/
lemma velocityTable_closed :
    ∀ v ∈ velocityTable,
      (if v < TERMINAL then roundF32 (v + GRAVITY_STEP) else v) ∈ velocityTable := by decide

/-- Every value of the velocity table is at most 2 + 2 ^ (-22). -/
lemma velocityTable_le : ∀ v ∈ velocityTable, v ≤ TERMINAL + 2 ^ 127 := by decide

/-- The velocity of every reachable player state lies in the table. -/
lemma reachable_velocity_mem {p : Player} (h : ReachablePlayer p) :
    p.velocity ∈ velocityTable := by
  induction h with
  | new => decide
  | gravity _ ih =>
    exact velocityTable_closed _ ih
  | flap _ ih =>
    have hmem : FLAP_VELOCITY ∈ velocityTable := by decide
    simpa [Player.flap] using hmem

/-- Projection of gravity_and_move: the updated velocity. -/
lemma gravity_and_move_velocity (p : Player) :
    p.gravity_and_move.velocity =
      if p.velocity < TERMINAL then roundF32 (p.velocity + GRAVITY_STEP) else p.velocity := rfl

/-- Projection of gravity_and_move: the horizontal advance. -/
lemma gravity_and_move_x (p : Player) : p.gravity_and_move.x = p.x + 1 := rfl

/-- Projection of gravity_and_move: the vertical update and clamp. -/
lemma gravity_and_move_y (p : Player) :
    p.gravity_and_move.y =
      if p.y + toI32 p.gravity_and_move.velocity < 0 then 0
      else p.y + toI32 p.gravity_and_move.velocity := rfl

/-- The velocity one advance after a flap: the f32 sum -2.0 + 0.2f32,
rounded, is -7549747 * 2 ^ (-23) = -1.7999999523162842. -/
lemma flap_advance_velocity (p : Player) :
    p.flap.gravity_and_move.velocity = -7549747 * 2 ^ 127 := by
  have hfv : p.flap.velocity = FLAP_VELOCITY := rfl
  rw [gravity_and_move_velocity, hfv, if_pos (by decide : FLAP_VELOCITY < TERMINAL)]
  decide

/-- The row one advance after a flap: -1.7999999523162842 truncates toward
zero to -1, so the player moves up one row, clamped at row 0. -/
lemma flap_advance_y (p : Player) :
    p.flap.gravity_and_move.y = if p.y - 1 < 0 then 0 else p.y - 1 := by
  rw [gravity_and_move_y, flap_advance_velocity]
  have ht : toI32 (-7549747 * 2 ^ 127) = -1 := by decide
  have hfy : p.flap.y = p.y := rfl
  rw [ht, hfy]
  have he : p.y + -1 = p.y - 1 := by ring
  rw [he]

/-- C1.  The collision test is true iff the horizontal positions match
exactly and the row is strictly outside the gap; at matching column the
rows just beyond the gap collide, the gap boundary rows do not, and one
column off nothing collides.  The half-size of a gap is nonnegative (every
obstacle the game builds has size at least 2), which the boundary cases
need. -/
theorem c1_collision_iff (o : Obstacle) (p : Player) (hsize : 0 ≤ o.size) :
    (o.hit_obstacle p = true ↔
      p.x = o.x ∧ (p.y < o.gap_y - o.size.tdiv 2 ∨ o.gap_y + o.size.tdiv 2 < p.y)) ∧
    o.hit_obstacle { x := o.x, y := o.gap_y - o.size.tdiv 2 - 1, velocity := 0 } = true ∧
    o.hit_obstacle { x := o.x, y := o.gap_y - o.size.tdiv 2, velocity := 0 } = false ∧
    o.hit_obstacle { x := o.x, y := o.gap_y + o.size.tdiv 2, velocity := 0 } = false ∧
    o.hit_obstacle { x := o.x, y := o.gap_y + o.size.tdiv 2 + 1, velocity := 0 } = true ∧
    o.hit_obstacle { x := o.x + 1, y := o.gap_y - o.size.tdiv 2 - 1, velocity := 0 } = false := by
  have hhalf : 0 ≤ o.size.tdiv 2 := Int.tdiv_nonneg hsize (by omega)
  have hiff : o.hit_obstacle p = true ↔
      p.x = o.x ∧ (p.y < o.gap_y - o.size.tdiv 2 ∨ o.gap_y + o.size.tdiv 2 < p.y) := by
    simp [Obstacle.hit_obstacle]
  have hpt : ∀ px py : Int, o.hit_obstacle { x := px, y := py, velocity := 0 } = true ↔
      px = o.x ∧ (py < o.gap_y - o.size.tdiv 2 ∨ o.gap_y + o.size.tdiv 2 < py) := by
    intro px py
    simp [Obstacle.hit_obstacle]
  refine ⟨hiff, ?_, ?_, ?_, ?_, ?_⟩
  · rw [hpt]
    exact ⟨rfl, Or.inl (by omega)⟩
  · rw [Bool.eq_false_iff, Ne, hpt]
    rintro ⟨h1, h2 | h2⟩ <;> omega
  · rw [Bool.eq_false_iff, Ne, hpt]
    rintro ⟨h1, h2 | h2⟩ <;> omega
  · rw [hpt]
    exact ⟨rfl, Or.inr (by omega)⟩
  · rw [Bool.eq_false_iff, Ne, hpt]
    rintro ⟨h1, h2 | h2⟩ <;> omega

/-- C1 witness: a concrete obstacle of size 8 (half-size 4) at column 10
with gap center 25, and a player inside the gap. -/
theorem c1_collision_iff_witness :
    ((0 : Int) ≤ (Obstacle.mk 10 25 8).size) ∧
    (((Obstacle.mk 10 25 8).hit_obstacle { x := 10, y := 24, velocity := 0 } = true ↔
      (10 : Int) = 10 ∧
        ((24 : Int) < 25 - (Obstacle.mk 10 25 8).size.tdiv 2 ∨
          25 + (Obstacle.mk 10 25 8).size.tdiv 2 < 24)) ∧
    (Obstacle.mk 10 25 8).hit_obstacle
      { x := 10, y := 25 - (Obstacle.mk 10 25 8).size.tdiv 2 - 1, velocity := 0 } = true ∧
    (Obstacle.mk 10 25 8).hit_obstacle
      { x := 10, y := 25 - (Obstacle.mk 10 25 8).size.tdiv 2, velocity := 0 } = false ∧
    (Obstacle.mk 10 25 8).hit_obstacle
      { x := 10, y := 25 + (Obstacle.mk 10 25 8).size.tdiv 2, velocity := 0 } = false ∧
    (Obstacle.mk 10 25 8).hit_obstacle
      { x := 10, y := 25 + (Obstacle.mk 10 25 8).size.tdiv 2 + 1, velocity := 0 } = true ∧
    (Obstacle.mk 10 25 8).hit_obstacle
      { x := 10 + 1, y := 25 - (Obstacle.mk 10 25 8).size.tdiv 2 - 1, velocity := 0 } = false) :=
  ⟨by decide, c1_collision_iff (Obstacle.mk 10 25 8) { x := 10, y := 24, velocity := 0 } (by decide)⟩

/-- C7.  advance (gravity_and_move) adds the truncation toward zero of the
updated velocity to the row, clamps the row at zero from below, and moves
the horizontal distance up by exactly one; the last two conjuncts pin down
that toI32 is truncation toward zero on either sign. -/
theorem c7_advance_contract (p : Player) (q : Int) :
    p.gravity_and_move.x = p.x + 1 ∧
    0 ≤ p.gravity_and_move.y ∧
    p.gravity_and_move.y = max 0 (p.y + toI32 p.gravity_and_move.velocity) ∧
    (0 ≤ q → toI32 q * 2 ^ 149 ≤ q ∧ q < (toI32 q + 1) * 2 ^ 149) ∧
    (q < 0 → (toI32 q - 1) * 2 ^ 149 < q ∧ q ≤ toI32 q * 2 ^ 149) := by
  refine ⟨gravity_and_move_x p, ?_, ?_, ?_, ?_⟩
  · rw [gravity_and_move_y]
    split <;> omega
  · rw [gravity_and_move_y]
    rcases le_or_lt 0 (p.y + toI32 p.gravity_and_move.velocity) with h | h
    · rw [if_neg (by omega), max_eq_right h]
    · rw [if_pos h, max_eq_left (by omega)]
  · intro hq
    rw [toI32, if_neg (by omega)]
    have h1 : q.natAbs / 2 ^ 149 * 2 ^ 149 ≤ q.natAbs := Nat.div_mul_le_self _ _
    have h2 : q.natAbs < (q.natAbs / 2 ^ 149 + 1) * 2 ^ 149 := by
      have := Nat.div_add_mod q.natAbs (2 ^ 149)
      have hm : q.natAbs % 2 ^ 149 < 2 ^ 149 := Nat.mod_lt _ (by positivity)
      omega
    omega
  · intro hq
    rw [toI32, if_pos hq]
    have h1 : q.natAbs / 2 ^ 149 * 2 ^ 149 ≤ q.natAbs := Nat.div_mul_le_self _ _
    have h2 : q.natAbs < (q.natAbs / 2 ^ 149 + 1) * 2 ^ 149 := by
      have := Nat.div_add_mod q.natAbs (2 ^ 149)
      have hm : q.natAbs % 2 ^ 149 < 2 ^ 149 := Nat.mod_lt _ (by positivity)
      omega
    omega

/-- C7 witness at a concrete falling player (velocity 1.8000001907348633)
and a concrete negative f32 amount. -/
theorem c7_advance_contract_witness :
    (Player.mk 4 49 (1887437 * 2 ^ 129)).gravity_and_move.x = 4 + 1 ∧
    0 ≤ (Player.mk 4 49 (1887437 * 2 ^ 129)).gravity_and_move.y ∧
    (Player.mk 4 49 (1887437 * 2 ^ 129)).gravity_and_move.y =
      max 0 (49 + toI32 (Player.mk 4 49 (1887437 * 2 ^ 129)).gravity_and_move.velocity) ∧
    (0 ≤ (-7549747 * 2 ^ 127 : Int) →
      toI32 (-7549747 * 2 ^ 127) * 2 ^ 149 ≤ (-7549747 * 2 ^ 127 : Int) ∧
      (-7549747 * 2 ^ 127 : Int) < (toI32 (-7549747 * 2 ^ 127) + 1) * 2 ^ 149) ∧
    ((-7549747 * 2 ^ 127 : Int) < 0 →
      (toI32 (-7549747 * 2 ^ 127) - 1) * 2 ^ 149 < (-7549747 * 2 ^ 127 : Int) ∧
      (-7549747 * 2 ^ 127 : Int) ≤ toI32 (-7549747 * 2 ^ 127) * 2 ^ 149) :=
  c7_advance_contract (Player.mk 4 49 (1887437 * 2 ^ 129)) (-7549747 * 2 ^ 127)

/-- C2 counterexample.  At starting velocity -2.0 (which is at most 0) the
unflapped advance already truncates to a one-row rise, so flap followed by
advance does not strictly decrease the row relative to the plain advance,
and its delta is -1, not -2. -/
theorem c2_counterexample :
    ¬((Player.mk 5 25 (-(2 ^ 150))).flap.gravity_and_move.y <
        (Player.mk 5 25 (-(2 ^ 150))).gravity_and_move.y) ∧
    ¬((Player.mk 5 25 (-(2 ^ 150))).flap.gravity_and_move.y = 25 - 2) := by
  exact ⟨by decide, by decide⟩

/-- C2 as amended.  For starting velocities between -2.0 (the lowest the
game ever holds) and 0, flap followed by one advance never ends below the
plain advance (weak, not strict, decrease), and away from the top clamp the
flapped advance moves the player up by exactly one row:
floor is taken toward zero, so the f32 sum -2.0 + 0.2 = -1.7999999523
contributes -1, not -2. -/
theorem c2_flap_advance (p : Player) (hlo : FLAP_VELOCITY ≤ p.velocity) (hhi : p.velocity ≤ 0) :
    p.flap.gravity_and_move.y ≤ p.gravity_and_move.y ∧
    (1 ≤ p.y → p.flap.gravity_and_move.y = p.y - 1) := by
  have hterm : p.velocity < TERMINAL := by
    have h0 : (0 : Int) < TERMINAL := by decide
    omega
  have hv : p.gravity_and_move.velocity = roundF32 (p.velocity + GRAVITY_STEP) := by
    rw [gravity_and_move_velocity, if_pos hterm]
  have hgt : -TERMINAL < p.gravity_and_move.velocity := by
    rw [hv]
    apply roundF32_gt_neg_terminal
    have hfl : FLAP_VELOCITY = -TERMINAL := by decide
    omega
  have ht : -1 ≤ toI32 p.gravity_and_move.velocity := toI32_ge_neg_one _ hgt
  constructor
  · rw [flap_advance_y, gravity_and_move_y]
    split_ifs <;> omega
  · intro h1
    rw [flap_advance_y, if_neg (by omega)]

/-- C2 witness at rest velocity 0 and row 25: the flapped advance lands one
row above the plain advance. -/
theorem c2_flap_advance_witness :
    (FLAP_VELOCITY ≤ (Player.mk 5 25 0).velocity ∧ (Player.mk 5 25 0).velocity ≤ 0) ∧
    ((Player.mk 5 25 0).flap.gravity_and_move.y ≤ (Player.mk 5 25 0).gravity_and_move.y ∧
      (1 ≤ (Player.mk 5 25 0).y → (Player.mk 5 25 0).flap.gravity_and_move.y = 25 - 1)) :=
  ⟨⟨by decide, by decide⟩, c2_flap_advance (Player.mk 5 25 0) (by decide) (by decide)⟩

/-- C10 counterexample.  A player already clamped at the top row stays at
row 0 after flap plus advance instead of moving up one row. -/
theorem c10_counterexample :
    ¬((Player.new 5 0).flap.gravity_and_move.y = (Player.new 5 0).y - 1) := by
  decide

/-- C10 as amended.  When the velocity the gravity increment produces lies
strictly inside (-1.0, 1.0), the truncation toward zero contributes 0 and
the row of a player (row nonnegative, as every game player is) is
unchanged; and the first advance after a flap raises the player exactly one
row (increment -2.0 to -1.7999999523, truncated toward zero to -1) provided
the player is not clamped at the top row. -/
theorem c10_small_velocity_truncation (p : Player) :
    (0 ≤ p.y → -(2 ^ 149) < p.gravity_and_move.velocity →
      p.gravity_and_move.velocity < 2 ^ 149 → p.gravity_and_move.y = p.y) ∧
    (1 ≤ p.y → p.flap.gravity_and_move.y = p.y - 1) := by
  constructor
  · intro hy hlo hhi
    have ht : toI32 p.gravity_and_move.velocity = 0 := by
      rw [toI32]
      split
      · omega
      · omega
    rw [gravity_and_move_y, ht, if_neg (by omega)]
    omega
  · intro h1
    rw [flap_advance_y, if_neg (by omega)]

/-- C10 witness: a nearly spent upward velocity (-0.1999998539686203) whose
gravity increment lands at 1.49e-7, inside (-1, 1), leaves row 25 in place;
the flap instance raises row 25 to 24. -/
theorem c10_small_velocity_truncation_witness :
    ((0 : Int) ≤ (Player.mk 9 25 (-13421763 * 2 ^ 123)).y ∧
      -(2 ^ 149) < (Player.mk 9 25 (-13421763 * 2 ^ 123)).gravity_and_move.velocity ∧
      (Player.mk 9 25 (-13421763 * 2 ^ 123)).gravity_and_move.velocity < 2 ^ 149) ∧
    (Player.mk 9 25 (-13421763 * 2 ^ 123)).gravity_and_move.y = 25 ∧
    (Player.mk 9 25 (-13421763 * 2 ^ 123)).flap.gravity_and_move.y = 25 - 1 :=
  ⟨⟨by decide, by decide, by decide⟩,
    (c10_small_velocity_truncation (Player.mk 9 25 (-13421763 * 2 ^ 123))).1
      (by decide) (by decide) (by decide),
    (c10_small_velocity_truncation (Player.mk 9 25 (-13421763 * 2 ^ 123))).2 (by decide)⟩

/-- C4 counterexample.  Ten advances from the fresh player leave the
velocity at 8388609 * 2 ^ (-22) = 2.000000238418579, strictly above the 2.0
of the terminal check: the ten rounded f32 additions of 0.2 overshoot. -/
theorem c4_counterexample :
    TERMINAL < (Player.gravity_and_move^[10] (Player.new 5 25)).velocity := by
  decide

/-- C4 as amended.  Over every sequence of advances and flaps from the
fresh player the velocity never exceeds 2 + 2 ^ (-22), the single f32 value
above 2.0 the accumulation can reach (and once at or above 2.0 it stays
fixed, as the table closure shows). -/
theorem c4_terminal_velocity (p : Player) (h : ReachablePlayer p) :
    p.velocity ≤ TERMINAL + 2 ^ 127 :=
  velocityTable_le _ (reachable_velocity_mem h)

/-- C4 witness: the fresh player is reachable and satisfies the bound. -/
theorem c4_terminal_velocity_witness :
    (Player.new 5 25).velocity ≤ TERMINAL + 2 ^ 127 :=
  c4_terminal_velocity _ ReachablePlayer.new

/-- C3 counterexample.  After the start signal the obstacle sits at column
SCREEN_WIDTH = 80, not at one screen width ahead of the player column 5
(which would be 85). -/
theorem c3_counterexample :
    ((State.new 20).tick 0 (some VirtualKeyCode.P) 15).obstacle.x ≠
      ((State.new 20).tick 0 (some VirtualKeyCode.P) 15).player.x + SCREEN_WIDTH := by
  decide

/-- C3 as amended.  From Menu and likewise from End, the start key yields
Playing with a fresh player at the fixed start coordinates (5, 25), score
zero, and a fresh obstacle whose horizontal position is the screen width 80
itself, i.e. 75 = SCREEN_WIDTH - 5 columns ahead of the player, not one
full screen width ahead of the player. -/
theorem c3_start_transition (s : State) (elapsedMs gapY : Int)
    (h : s.mode = GameMode.Menu ∨ s.mode = GameMode.End) :
    (s.tick elapsedMs (some VirtualKeyCode.P) gapY).mode = GameMode.Playing ∧
    (s.tick elapsedMs (some VirtualKeyCode.P) gapY).player = Player.new 5 25 ∧
    (s.tick elapsedMs (some VirtualKeyCode.P) gapY).score = 0 ∧
    (s.tick elapsedMs (some VirtualKeyCode.P) gapY).obstacle = Obstacle.new SCREEN_WIDTH 0 gapY ∧
    (s.tick elapsedMs (some VirtualKeyCode.P) gapY).obstacle.x = SCREEN_WIDTH ∧
    (s.tick elapsedMs (some VirtualKeyCode.P) gapY).obstacle.x =
      (s.tick elapsedMs (some VirtualKeyCode.P) gapY).player.x + (SCREEN_WIDTH - 5) := by
  have htick : s.tick elapsedMs (some VirtualKeyCode.P) gapY = s.restart gapY := by
    rcases h with h | h <;> (unfold State.tick; rw [h]) <;> rfl
  rw [htick]
  exact ⟨rfl, rfl, rfl, rfl, rfl, rfl⟩

/-- C3 witness: the initial state is in Menu, and the start signal there
produces the amended configuration. -/
theorem c3_start_transition_witness :
    ((State.new 20).mode = GameMode.Menu ∨ (State.new 20).mode = GameMode.End) ∧
    ((State.new 20).tick 0 (some VirtualKeyCode.P) 15).mode = GameMode.Playing ∧
    ((State.new 20).tick 0 (some VirtualKeyCode.P) 15).player = Player.new 5 25 ∧
    ((State.new 20).tick 0 (some VirtualKeyCode.P) 15).score = 0 ∧
    ((State.new 20).tick 0 (some VirtualKeyCode.P) 15).obstacle = Obstacle.new SCREEN_WIDTH 0 15 ∧
    ((State.new 20).tick 0 (some VirtualKeyCode.P) 15).obstacle.x = SCREEN_WIDTH ∧
    ((State.new 20).tick 0 (some VirtualKeyCode.P) 15).obstacle.x =
      ((State.new 20).tick 0 (some VirtualKeyCode.P) 15).player.x + (SCREEN_WIDTH - 5) :=
  ⟨Or.inl rfl, c3_start_transition (State.new 20) 0 15 (Or.inl rfl)⟩

/-- Floor commutes with clamping from below at the integer 1. -/
lemma floor_max_one (q : ℚ) : ⌊max (1 : ℚ) q⌋ = max 1 ⌊q⌋ := by
  rcases le_total q 1 with h | h
  · rw [max_eq_left h, max_eq_left]
    · exact Int.floor_one
    · calc ⌊q⌋ ≤ ⌊(1 : ℚ)⌋ := Int.floor_le_floor h
        _ = 1 := Int.floor_one
  · rw [max_eq_right h, max_eq_right]
    calc (1 : ℤ) = ⌊(1 : ℚ)⌋ := Int.floor_one.symm
      _ ≤ ⌊q⌋ := Int.floor_le_floor h

/-- C5.  The half-width of a generated obstacle is the clamp at the minimum
half-width 1 of half the base width 20 minus half the score, rounded down
to a whole row, and it never grows as the score grows. -/
theorem c5_gap_half_width (x score gapY : Int) :
    (Obstacle.new x score gapY).size.tdiv 2 = ⌊max (1 : ℚ) ((20 : ℚ) / 2 - (score : ℚ) / 2)⌋ ∧
    ∀ score2 : Int, score ≤ score2 →
      (Obstacle.new x score2 gapY).size.tdiv 2 ≤ (Obstacle.new x score gapY).size.tdiv 2 := by
  have htdiv : ∀ s : Int, (Obstacle.new x s gapY).size.tdiv 2 = max 2 (20 - s) / 2 := by
    intro s
    have hsize : (Obstacle.new x s gapY).size = max 2 (20 - s) := rfl
    rw [hsize, Int.tdiv_eq_ediv (by omega) (by omega)]
  constructor
  · rw [htdiv, floor_max_one]
    have hq : (20 : ℚ) / 2 - (score : ℚ) / 2 = ((20 - score : ℤ) : ℚ) / ((2 : ℕ) : ℚ) := by
      push_cast
      ring
    rw [hq, Rat.floor_intCast_div_natCast]
    have hc : ((2 : ℕ) : ℤ) = 2 := rfl
    rw [hc]
    omega
  · intro s2 hle
    rw [htdiv, htdiv]
    omega

/-- C5 witness at score 3 against score 5. -/
theorem c5_gap_half_width_witness :
    ((Obstacle.new 0 3 20).size.tdiv 2 = ⌊max (1 : ℚ) ((20 : ℚ) / 2 - ((3 : Int) : ℚ) / 2)⌋) ∧
    ((3 : Int) ≤ 5 ∧
      (Obstacle.new 0 5 20).size.tdiv 2 ≤ (Obstacle.new 0 3 20).size.tdiv 2) := by
  obtain ⟨h1, h2⟩ := c5_gap_half_width 0 3 20
  exact ⟨h1, by norm_num, h2 5 (by norm_num)⟩

/-- C6.  Inside a Playing tick, the score and obstacle change exactly when
the simulated player has passed the obstacle column: the score goes up by
one and the obstacle is replaced by a freshly generated one a full screen
width ahead of the player, sized from the incremented score; otherwise both
are untouched. -/
theorem c6_pass_obstacle (s : State) (elapsedMs : Int) (key : Option VirtualKeyCode)
    (gapY : Int) :
    ((s.play elapsedMs key gapY).score, (s.play elapsedMs key gapY).obstacle) =
      (if s.obstacle.x < (s.playPlayer elapsedMs key).x then
        (s.score + 1,
          Obstacle.new ((s.playPlayer elapsedMs key).x + SCREEN_WIDTH) (s.score + 1) gapY)
      else (s.score, s.obstacle)) := by
  simp only [State.play]

/-- The mode field State::play writes, as a single conditional. -/
lemma play_mode (s : State) (elapsedMs : Int) (key : Option VirtualKeyCode) (gapY : Int) :
    (s.play elapsedMs key gapY).mode =
      if SCREEN_HEIGHT < (s.playPlayer elapsedMs key).y ∨
          (s.play elapsedMs key gapY).obstacle.hit_obstacle (s.playPlayer elapsedMs key) = true
        then GameMode.End else s.mode := rfl

/-- C8.  A Playing tick moves the mode to End exactly when the simulated
player is below the bottom boundary or the (possibly replaced) obstacle
reports a hit; otherwise the mode stays Playing. -/
theorem c8_end_transition (s : State) (elapsedMs : Int) (key : Option VirtualKeyCode)
    (gapY : Int) (h : s.mode = GameMode.Playing) :
    (s.play elapsedMs key gapY).mode =
      (if SCREEN_HEIGHT < (s.playPlayer elapsedMs key).y ∨
          (s.play elapsedMs key gapY).obstacle.hit_obstacle (s.playPlayer elapsedMs key) = true
        then GameMode.End else GameMode.Playing) := by
  rw [play_mode, h]

/-- C8 witness: a concrete Playing state six rows into the fall, neither
off-screen nor colliding, which stays out of End. -/
theorem c8_end_transition_witness :
    ((State.mk (Player.mk 5 25 0) 0 (Obstacle.new 80 0 20) GameMode.Playing 0).play 10 none
        15).mode =
      (if SCREEN_HEIGHT <
          ((State.mk (Player.mk 5 25 0) 0 (Obstacle.new 80 0 20) GameMode.Playing 0).playPlayer
            10 none).y ∨
        ((State.mk (Player.mk 5 25 0) 0 (Obstacle.new 80 0 20) GameMode.Playing 0).play 10 none
              15).obstacle.hit_obstacle
            ((State.mk (Player.mk 5 25 0) 0 (Obstacle.new 80 0 20) GameMode.Playing 0).playPlayer
              10 none) = true
        then GameMode.End else GameMode.Playing) :=
  c8_end_transition (State.mk (Player.mk 5 25 0) 0 (Obstacle.new 80 0 20) GameMode.Playing 0)
    10 none 15 rfl

/-- C9.  Within one Playing tick the simulation advances exactly once when
the accumulated frame time passes FRAME_DURATION (and the accumulator
resets to zero), zero times otherwise (iterate count 1 or 0); a Space key
applies flap on the same tick in either case. -/
theorem c9_frame_gate (s : State) (elapsedMs : Int) (key : Option VirtualKeyCode)
    (gapY : Int) :
    (s.play elapsedMs key gapY).player =
      (if key = some VirtualKeyCode.Space then Player.flap else id)
        (Player.gravity_and_move^[if FRAME_DURATION < s.tickedFrameTime elapsedMs then 1 else 0]
          s.player) ∧
    (s.play elapsedMs key gapY).frame_time =
      (if FRAME_DURATION < s.tickedFrameTime elapsedMs then 0 else s.tickedFrameTime elapsedMs) ∧
    (s.play elapsedMs (some VirtualKeyCode.Space) gapY).player =
      (Player.gravity_and_move^[if FRAME_DURATION < s.tickedFrameTime elapsedMs then 1 else 0]
          s.player).flap := by
  have hpp : forall k : Option VirtualKeyCode, s.playPlayer elapsedMs k =
      (if k = some VirtualKeyCode.Space then Player.flap else id)
        (Player.gravity_and_move^[if FRAME_DURATION < s.tickedFrameTime elapsedMs then 1 else 0]
          s.player) := by
    intro k
    rw [State.playPlayer]
    by_cases hf : FRAME_DURATION < s.tickedFrameTime elapsedMs <;>
      by_cases hk : k = some VirtualKeyCode.Space <;>
        simp [hf, hk, Function.iterate_one]
  have hproj : forall k : Option VirtualKeyCode,
      (s.play elapsedMs k gapY).player = s.playPlayer elapsedMs k := fun k => rfl
  refine ⟨?_, rfl, ?_⟩
  · rw [hproj, hpp]
  · rw [hproj, hpp]
    simp
